import Mathlib

/-!
Verification of the SmartFridge recipe matching and shopping-suggestion engine
(`recipe_search.py` and `queries/query_handlers.py`).

Modelling conventions:
- Python lists become `List`, dicts with a fixed key set become structures.
- A recipe dict as the search code reads it has required keys `id`, `name`,
  `ingredients` (read with `recipe[...]`, raising `KeyError` when absent) and
  optional keys read with `recipe.get(...)`, modelled as `Option` fields.
  `RawRecipe` additionally makes the three required fields optional and the
  raw search returns `Except`, modelling the `KeyError` paths.
- `round(x, 1)` on the match percentage is modelled exactly: the percentage is
  stored in tenths of a percent (`percentage10 : Nat`), computed by
  round-half-even of `1000 * matched / total`, which is the exact value of
  `round(matched/total*100, 1) * 10`. All thresholds the code compares
  against (0, 25, 50, 100) are scaled by 10 accordingly.
- Python `str.lower()` is modelled by `lowerStr` (character-wise `Char.toLower`),
  which agrees with CPython on the ASCII ingredient names the program handles.
- `list.sort(key=..., reverse=True)` sorts descending by the key; the spec
  declares the tie-break unspecified, and we model the sort with a stable
  insertion sort by the corresponding non-strict descending relation.
-/

/-- Character-wise lowercasing of a string, modelling Python `str.lower()`
on the ASCII ingredient data this program works with. -/
def lowerStr (s : String) : String := ⟨s.data.map Char.toLower⟩

/-- Round-half-even (banker's rounding, as Python `round`) of the fraction
`num / den` for natural `num` and `den`, `den > 0`. -/
def roundHalfEvenDiv (num den : ℕ) : ℕ :=
  let d := num / den
  let r := num % den
  if 2 * r < den then d
  else if den < 2 * r then d + 1
  else if d % 2 = 0 then d else d + 1

/-- Result of `calculate_match`: the match percentage in tenths of a percent
together with the matched and missing ingredient lists. -/
structure MatchResult where
  percentage10 : ℕ
  matched : List String
  missing : List String
deriving DecidableEq

/-- The classification loop of `calculate_match` in `recipe_search.py`
(lines 156-161): each recipe ingredient goes to `matched` when it is a
member of `user_ingredients`, else to `missing`, preserving order. -/
def classify (user_ingredients : List String) : List String → List String × List String
  | [] => ([], [])
  | recipe_ing :: rest =>
    let (matched, missing) := classify user_ingredients rest
    if recipe_ing ∈ user_ingredients then (recipe_ing :: matched, missing)
    else (matched, recipe_ing :: missing)

/-- `calculate_match` from `recipe_search.py` (lines 145-172). -/
def calculate_match (recipe_ingredients user_ingredients : List String) : MatchResult :=
  let lower_rec_ings := recipe_ingredients.map lowerStr
  let (matched, missing) := classify user_ingredients lower_rec_ings
  let total := lower_rec_ings.length
  let match_count := matched.length
  { percentage10 := if 0 < total then roundHalfEvenDiv (1000 * match_count) total else 0
    matched := matched
    missing := missing }

namespace queries

/-- The `_calculate_match` helper of `queries/query_handlers.py`
(lines 156-169), written there with two list comprehensions. -/
def calculate_match (recipe_ingredients user_ingredients : List String) : MatchResult :=
  let lower_recipe := recipe_ingredients.map lowerStr
  let matched := lower_recipe.filter (fun ing => decide (ing ∈ user_ingredients))
  let missing := lower_recipe.filter (fun ing => decide (ing ∉ user_ingredients))
  let total := lower_recipe.length
  { percentage10 := if 0 < total then roundHalfEvenDiv (1000 * matched.length) total else 0
    matched := matched
    missing := missing }

end queries

/-- A recipe record as the search code consumes it: `id`, `name` and
`ingredients` are read with mandatory indexing (`recipe[...]`), every other
field with `recipe.get(...)` and a default, hence `Option`. -/
structure Recipe where
  id : ℤ
  name : String
  ingredients : List String
  prep_time : Option ℤ := none
  cook_time : Option ℤ := none
  total_time : Option ℤ := none
  servings : Option ℤ := none
  skill_level : Option String := none
  cuisine : Option String := none
  dietary_tags : Option (List String) := none
  equipment : Option (List String) := none
deriving DecidableEq

/-- The filter-criteria dictionary: each recognized key is either absent
(`none`) or present with a value (`some v`, where `v` may be Python-falsy:
`0`, the empty string or the empty list). -/
structure Filters where
  max_time : Option ℤ := none
  skill_level : Option String := none
  dietary_tags : Option (List String) := none
  cuisine : Option String := none
deriving DecidableEq

/-- Emptiness of the criteria dictionary (Python `not filters` on a dict). -/
def Filters.isEmpty (f : Filters) : Bool :=
  f.max_time.isNone && f.skill_level.isNone && f.dietary_tags.isNone && f.cuisine.isNone

/-- The `max_time` clause of `passes_filters` (`recipe_search.py` lines
180-182): active only when the key is present with a truthy (nonzero)
value; the recipe passes when `recipe.get('total_time', 999) <= max_time`. -/
def maxTimeCheck (total_time : Option ℤ) (max_time : Option ℤ) : Bool :=
  match max_time with
  | some t => if t ≠ 0 then decide (total_time.getD 999 ≤ t) else true
  | none => true

/-- The `skill_level` clause (`recipe_search.py` lines 185-187): active when
present and nonempty; case-insensitive equality with the recipe's skill
level, absent recipe field defaulting to the empty string. -/
def skillCheck (skill_level : Option String) (wanted : Option String) : Bool :=
  match wanted with
  | some s => if s ≠ "" then decide (lowerStr (skill_level.getD "") = lowerStr s) else true
  | none => true

/-- The `dietary_tags` clause (`recipe_search.py` lines 190-196): active when
present and nonempty; the recipe must carry every required tag
(case-insensitive). -/
def dietaryCheck (dietary_tags : Option (List String)) (wanted : Option (List String)) : Bool :=
  match wanted with
  | some tags =>
    if tags ≠ [] then
      let recipe_tags := (dietary_tags.getD []).map lowerStr
      tags.all (fun t => decide (lowerStr t ∈ recipe_tags))
    else true
  | none => true

/-- The `cuisine` clause (`recipe_search.py` lines 199-201). -/
def cuisineCheck (cuisine : Option String) (wanted : Option String) : Bool :=
  match wanted with
  | some c => if c ≠ "" then decide (lowerStr (cuisine.getD "") = lowerStr c) else true
  | none => true

/-- `passes_filters` from `recipe_search.py` (lines 174-203): `None` or an
empty dict passes everything, otherwise all four clauses are ANDed. -/
def passes_filters (recipe : Recipe) : Option Filters → Bool
  | none => true
  | some f =>
    if f.isEmpty then true
    else
      maxTimeCheck recipe.total_time f.max_time &&
      skillCheck recipe.skill_level f.skill_level &&
      dietaryCheck recipe.dietary_tags f.dietary_tags &&
      cuisineCheck recipe.cuisine f.cuisine

namespace queries

/-- The `max_time` clause of `_passes_filters` in `query_handlers.py`
(line 173): unlike the script version it fires for any present value,
truthy or not. -/
def maxTimeCheck (total_time : Option ℤ) (max_time : Option ℤ) : Bool :=
  match max_time with
  | some t => decide (total_time.getD 999 ≤ t)
  | none => true

/-- The `skill_level` clause of `_passes_filters` (line 176). -/
def skillCheck (skill_level : Option String) (wanted : Option String) : Bool :=
  match wanted with
  | some s => decide (lowerStr (skill_level.getD "") = lowerStr s)
  | none => true

/-- The `dietary_tags` clause of `_passes_filters` (lines 179-183). -/
def dietaryCheck (dietary_tags : Option (List String)) (wanted : Option (List String)) : Bool :=
  match wanted with
  | some tags =>
    let recipe_tags := (dietary_tags.getD []).map lowerStr
    tags.all (fun t => decide (lowerStr t ∈ recipe_tags))
  | none => true

/-- The `cuisine` clause of `_passes_filters` (line 185). -/
def cuisineCheck (cuisine : Option String) (wanted : Option String) : Bool :=
  match wanted with
  | some c => decide (lowerStr (cuisine.getD "") = lowerStr c)
  | none => true

/-- The `_passes_filters` helper of `queries/query_handlers.py`
(lines 171-188): no emptiness shortcut and no truthiness guards. -/
def passes_filters (recipe : Recipe) (f : Filters) : Bool :=
  maxTimeCheck recipe.total_time f.max_time &&
  skillCheck recipe.skill_level f.skill_level &&
  dietaryCheck recipe.dietary_tags f.dietary_tags &&
  cuisineCheck recipe.cuisine f.cuisine

end queries

/-- The result dict built by `search_recipes` (`recipe_search.py` lines
219-233): recipe fields plus the match data, optional fields defaulted. -/
structure ScoredRecipe where
  id : ℤ
  name : String
  match_percentage10 : ℕ
  matched_ingredients : List String
  missing_ingredients : List String
  prep_time : ℤ
  cook_time : ℤ
  total_time : ℤ
  servings : ℤ
  skill_level : String
  cuisine : String
  dietary_tags : List String
  equipment : List String
deriving DecidableEq

/-- Builds the `search_recipes` result dict for one recipe. -/
def scoredOf (recipe : Recipe) (match_data : MatchResult) : ScoredRecipe :=
  { id := recipe.id
    name := recipe.name
    match_percentage10 := match_data.percentage10
    matched_ingredients := match_data.matched
    missing_ingredients := match_data.missing
    prep_time := recipe.prep_time.getD 0
    cook_time := recipe.cook_time.getD 0
    total_time := recipe.total_time.getD 0
    servings := recipe.servings.getD 0
    skill_level := recipe.skill_level.getD "unknown"
    cuisine := recipe.cuisine.getD "unknown"
    dietary_tags := recipe.dietary_tags.getD []
    equipment := recipe.equipment.getD [] }

/-- Descending order on match percentage, the key of
`results.sort(key=..., reverse=True)`. -/
def byMatchDesc (a b : ScoredRecipe) : Prop := b.match_percentage10 ≤ a.match_percentage10

instance : DecidableRel byMatchDesc :=
  fun a b => inferInstanceAs (Decidable (b.match_percentage10 ≤ a.match_percentage10))

instance : IsTotal ScoredRecipe byMatchDesc :=
  ⟨fun a b => Nat.le_total b.match_percentage10 a.match_percentage10⟩

instance : IsTrans ScoredRecipe byMatchDesc :=
  ⟨fun _ _ _ h1 h2 => Nat.le_trans h2 h1⟩

/-- The body of the `search_recipes` loop for one recipe (`recipe_search.py`
lines 209-233): `None` when the recipe is skipped. -/
def searchStep (user_ingredients : List String) (filters : Option Filters)
    (recipe : Recipe) : Option ScoredRecipe :=
  if passes_filters recipe filters then
    let match_data := calculate_match recipe.ingredients user_ingredients
    if 0 < match_data.percentage10 then some (scoredOf recipe match_data) else none
  else none

/-- `search_recipes` from `recipe_search.py` (lines 205-238). -/
def search_recipes (user_ingredients : List String) (recipes : List Recipe)
    (filters : Option Filters) : List ScoredRecipe :=
  let results := recipes.filterMap (searchStep user_ingredients filters)
  List.insertionSort byMatchDesc results

/-- The dict built by `find_partial_matches` (`recipe_search.py` lines
263-272), a reduced field set. -/
structure PartialRecipe where
  id : ℤ
  name : String
  match_percentage10 : ℕ
  matched_ingredients : List String
  missing_ingredients : List String
  total_time : ℤ
  skill_level : String
  cuisine : String
deriving DecidableEq

/-- Builds the `find_partial_matches` result dict for one recipe. -/
def partialOf (recipe : Recipe) (match_data : MatchResult) : PartialRecipe :=
  { id := recipe.id
    name := recipe.name
    match_percentage10 := match_data.percentage10
    matched_ingredients := match_data.matched
    missing_ingredients := match_data.missing
    total_time := recipe.total_time.getD 0
    skill_level := recipe.skill_level.getD "unknown"
    cuisine := recipe.cuisine.getD "unknown" }

/-- Descending order on match percentage for partial matches. -/
def byPartialDesc (a b : PartialRecipe) : Prop := b.match_percentage10 ≤ a.match_percentage10

instance : DecidableRel byPartialDesc :=
  fun a b => inferInstanceAs (Decidable (b.match_percentage10 ≤ a.match_percentage10))

instance : IsTotal PartialRecipe byPartialDesc :=
  ⟨fun a b => Nat.le_total b.match_percentage10 a.match_percentage10⟩

instance : IsTrans PartialRecipe byPartialDesc :=
  ⟨fun _ _ _ h1 h2 => Nat.le_trans h2 h1⟩

/-- The body of the `find_partial_matches` loop for one recipe
(`recipe_search.py` lines 249-272): skip excluded ids, apply filters, keep
`min_match_threshold <= percentage < 100` (thresholds in whole percent,
as every caller passes). -/
def partialStep (user_ingredients : List String) (filters : Option Filters)
    (min_match_threshold : ℕ) (ex : List ℤ) (recipe : Recipe) : Option PartialRecipe :=
  if recipe.id ∈ ex then none
  else if passes_filters recipe filters then
    let match_data := calculate_match recipe.ingredients user_ingredients
    if 10 * min_match_threshold ≤ match_data.percentage10 ∧ match_data.percentage10 < 1000 then
      some (partialOf recipe match_data)
    else none
  else none

/-- `find_partial_matches` from `recipe_search.py` (lines 240-277);
`exclude_ids = None` defaults to the empty set. -/
def find_partial_matches (user_ingredients : List String) (recipes : List Recipe)
    (filters : Option Filters) (min_match_threshold : ℕ)
    (exclude_ids : Option (List ℤ)) : List PartialRecipe :=
  let ex := exclude_ids.getD []
  let partial_matches := recipes.filterMap (partialStep user_ingredients filters min_match_threshold ex)
  List.insertionSort byPartialDesc partial_matches

/-- One entry of the `ingredient_impact` accumulator of
`generate_shopping_suggestions` (`recipe_search.py` lines 347-355). -/
structure SuggestionImpact where
  name : String
  unlock_count : ℕ
  recipe_names : List String
deriving DecidableEq

/-- One iteration of the missing-ingredient accumulation loop
(`recipe_search.py` lines 346-355): create the entry at zero when absent,
then bump its count and append the recipe name. -/
def addMissing (ingredient_impact : List SuggestionImpact) (missing_ing : String)
    (recipe_name : String) : List SuggestionImpact :=
  let impact :=
    if ingredient_impact.any (fun s => decide (s.name = missing_ing)) then ingredient_impact
    else ingredient_impact ++ [{ name := missing_ing, unlock_count := 0, recipe_names := [] }]
  impact.map (fun s =>
    if s.name = missing_ing then
      { s with unlock_count := s.unlock_count + 1, recipe_names := s.recipe_names ++ [recipe_name] }
    else s)

/-- The nested counting loops of `generate_shopping_suggestions`
(`recipe_search.py` lines 345-355), insertion order preserved. -/
def accumulateImpact (init : List SuggestionImpact) (candidates : List PartialRecipe) :
    List SuggestionImpact :=
  candidates.foldl
    (fun acc recipe =>
      recipe.missing_ingredients.foldl (fun acc2 ing => addMissing acc2 ing recipe.name) acc)
    init

/-- Strategy B of `generate_shopping_suggestions` (`recipe_search.py` lines
313-342): with zero matches, every filter-passing non-excluded recipe is a
candidate regardless of score. -/
def strategyB (user_ingredients : List String) (recipes : List Recipe)
    (filters : Option Filters) (ex : List ℤ) : List PartialRecipe :=
  recipes.filterMap (fun recipe =>
    if recipe.id ∈ ex then none
    else if passes_filters recipe filters then
      some (partialOf recipe (calculate_match recipe.ingredients user_ingredients))
    else none)

/-- Candidate selection of `generate_shopping_suggestions`
(`recipe_search.py` lines 292-342): Strategy A at threshold 50 with a
threshold-25 fallback when it comes back empty, else Strategy B. -/
def suggestionCandidates (user_ingredients : List String) (recipes : List Recipe)
    (filters : Option Filters) (has_matches : Bool) (ex : List ℤ) : List PartialRecipe :=
  if has_matches then
    let pm := find_partial_matches user_ingredients recipes filters 50 (some ex)
    if pm = [] then find_partial_matches user_ingredients recipes filters 25 (some ex) else pm
  else strategyB user_ingredients recipes filters ex

/-- Descending order on unlock count, the key of the suggestion sort. -/
def byUnlockDesc (a b : SuggestionImpact) : Prop := b.unlock_count ≤ a.unlock_count

instance : DecidableRel byUnlockDesc :=
  fun a b => inferInstanceAs (Decidable (b.unlock_count ≤ a.unlock_count))

instance : IsTotal SuggestionImpact byUnlockDesc :=
  ⟨fun a b => Nat.le_total b.unlock_count a.unlock_count⟩

instance : IsTrans SuggestionImpact byUnlockDesc :=
  ⟨fun _ _ _ h1 h2 => Nat.le_trans h2 h1⟩

/-- `generate_shopping_suggestions` from `recipe_search.py` (lines 279-361):
accumulate missing-ingredient impact over the candidate set, sort by unlock
count descending, truncate to `top_n`. -/
def generate_shopping_suggestions (user_ingredients : List String) (recipes : List Recipe)
    (filters : Option Filters) (top_n : ℕ) (has_matches : Bool)
    (exclude_ids : Option (List ℤ)) : List SuggestionImpact :=
  let ex := exclude_ids.getD []
  let suggestions :=
    accumulateImpact [] (suggestionCandidates user_ingredients recipes filters has_matches ex)
  (List.insertionSort byUnlockDesc suggestions).take top_n

/-- A catalog entry as loaded from JSON, with no key guaranteed: models the
raw dict before the search code indexes into it. -/
structure RawRecipe where
  id : Option ℤ := none
  name : Option String := none
  ingredients : Option (List String) := none
  prep_time : Option ℤ := none
  cook_time : Option ℤ := none
  total_time : Option ℤ := none
  servings : Option ℤ := none
  skill_level : Option String := none
  cuisine : Option String := none
  dietary_tags : Option (List String) := none
  equipment : Option (List String) := none
deriving DecidableEq

/-- A raw entry carrying the three mandatorily-indexed keys converts to a
`Recipe`; otherwise `none`. -/
def RawRecipe.toRecipe? (r : RawRecipe) : Option Recipe :=
  match r.id, r.name, r.ingredients with
  | some i, some n, some ings =>
    some { id := i, name := n, ingredients := ings, prep_time := r.prep_time
           cook_time := r.cook_time, total_time := r.total_time, servings := r.servings
           skill_level := r.skill_level, cuisine := r.cuisine
           dietary_tags := r.dietary_tags, equipment := r.equipment }
  | _, _, _ => none

/-- `passes_filters` applied to a raw entry: it only reads `.get` keys, so it
is total even on malformed entries. -/
def rawPassesFilters (recipe : RawRecipe) : Option Filters → Bool
  | none => true
  | some f =>
    if f.isEmpty then true
    else
      maxTimeCheck recipe.total_time f.max_time &&
      skillCheck recipe.skill_level f.skill_level &&
      dietaryCheck recipe.dietary_tags f.dietary_tags &&
      cuisineCheck recipe.cuisine f.cuisine

/-- The `search_recipes` loop over raw catalog entries, with the `KeyError`
paths of `recipe['ingredients']`, `recipe['id']` and `recipe['name']` made
explicit (`recipe_search.py` lines 209-233). -/
def collectScored (user_ingredients : List String) (filters : Option Filters) :
    List RawRecipe → Except String (List ScoredRecipe)
  | [] => .ok []
  | recipe :: rest =>
    if rawPassesFilters recipe filters then
      match recipe.ingredients with
      | none => .error "KeyError: ingredients"
      | some ings =>
        let match_data := calculate_match ings user_ingredients
        if 0 < match_data.percentage10 then
          match recipe.id, recipe.name with
          | none, _ => .error "KeyError: id"
          | some _, none => .error "KeyError: name"
          | some i, some n =>
            (collectScored user_ingredients filters rest).map
              (fun tail =>
                scoredOf
                  { id := i, name := n, ingredients := ings, prep_time := recipe.prep_time
                    cook_time := recipe.cook_time, total_time := recipe.total_time
                    servings := recipe.servings, skill_level := recipe.skill_level
                    cuisine := recipe.cuisine, dietary_tags := recipe.dietary_tags
                    equipment := recipe.equipment } match_data :: tail)
        else collectScored user_ingredients filters rest
    else collectScored user_ingredients filters rest

/-- `search_recipes` over a raw catalog: propagates the first `KeyError`,
otherwise sorts the collected results descending by match percentage. -/
def search_recipes_raw (user_ingredients : List String) (recipes : List RawRecipe)
    (filters : Option Filters) : Except String (List ScoredRecipe) :=
  (collectScored user_ingredients filters recipes).map (List.insertionSort byMatchDesc)

/-- Number of active (present and truthy) options in a criteria dict. -/
def Filters.activeCount (f : Filters) : ℕ :=
  (match f.max_time with | some t => if t ≠ 0 then 1 else 0 | none => 0) +
  (match f.skill_level with | some s => if s ≠ "" then 1 else 0 | none => 0) +
  (match f.dietary_tags with | some tags => if tags ≠ [] then 1 else 0 | none => 0) +
  (match f.cuisine with | some c => if c ≠ "" then 1 else 0 | none => 0)

/-- The single-option criteria dicts, one for each active option of `f`. -/
def activeSingletons (f : Filters) : List Filters :=
  (match f.max_time with
   | some t => if t ≠ 0 then [{ max_time := some t }] else []
   | none => []) ++
  (match f.skill_level with
   | some s => if s ≠ "" then [{ skill_level := some s }] else []
   | none => []) ++
  (match f.dietary_tags with
   | some tags => if tags ≠ [] then [{ dietary_tags := some tags }] else []
   | none => []) ++
  (match f.cuisine with
   | some c => if c ≠ "" then [{ cuisine := some c }] else []
   | none => [])

/-- The stream of `(missing ingredient, recipe name)` pairs the counting
loops of `generate_shopping_suggestions` process, in processing order. -/
def pairsOf (candidates : List PartialRecipe) : List (String × String) :=
  candidates.flatMap (fun c => c.missing_ingredients.map (fun ing => (ing, c.name)))

/-- The counting loop expressed over the flattened pair stream. -/
def processPairs (init : List SuggestionImpact) (ps : List (String × String)) :
    List SuggestionImpact :=
  ps.foldl (fun acc p => addMissing acc p.1 p.2) init

/-- Loop invariant of the impact accumulator: entry names are distinct,
every processed ingredient has an entry, and each entry holds the exact
occurrence count and per-occurrence recipe names of the processed prefix. -/
def ImpactInv (processed : List (String × String)) (acc : List SuggestionImpact) : Prop :=
  (∀ p ∈ processed, p.1 ∈ acc.map SuggestionImpact.name) ∧
  (acc.map SuggestionImpact.name).Nodup ∧
  ∀ s ∈ acc,
    s.unlock_count = (processed.filter (fun p => decide (p.1 = s.name))).length ∧
    s.recipe_names = (processed.filter (fun p => decide (p.1 = s.name))).map Prod.snd

/-- Concrete recipe with a duplicated ingredient, used as test data. -/
def soup : Recipe :=
  { id := 5, name := "soup", ingredients := ["salt", "salt", "egg"] }

/-- Concrete recipe with a known total time, used as test data. -/
def toast : Recipe :=
  { id := 1, name := "toast", ingredients := ["bread"], total_time := some 10 }

/-- Concrete recipe used as test data for filter composition. -/
def thaiBowl : Recipe :=
  { id := 2, name := "bowl", ingredients := ["rice"], total_time := some 20
    cuisine := some "Thai" }

/-- A malformed raw catalog entry: no `ingredients` key. -/
def mysteryRaw : RawRecipe := { id := some 7, name := some "mystery" }

/-- A well-formed raw catalog entry with only optional keys missing. -/
def toastRaw : RawRecipe :=
  { id := some 1, name := some "toast", ingredients := some ["bread"] }
theorem classify_eq_filter (user : List String) (l : List String) :
    classify user l =
      (l.filter (fun i => decide (i ∈ user)), l.filter (fun i => decide (i ∉ user))) := by
  induction l with
  | nil => rfl
  | cons a rest ih =>
    simp only [classify, ih, List.filter_cons]
    by_cases h : a ∈ user <;> simp [h]

theorem calculate_match_eq_queries (rec user : List String) :
    calculate_match rec user = queries.calculate_match rec user := by
  unfold calculate_match queries.calculate_match
  simp only [classify_eq_filter]

theorem calculate_match_matched (rec user : List String) :
    (calculate_match rec user).matched
      = (rec.map lowerStr).filter (fun i => decide (i ∈ user)) := by
  unfold calculate_match
  simp only [classify_eq_filter]

theorem calculate_match_missing (rec user : List String) :
    (calculate_match rec user).missing
      = (rec.map lowerStr).filter (fun i => decide (i ∉ user)) := by
  unfold calculate_match
  simp only [classify_eq_filter]

theorem filter_length_partition {α : Type} (p : α → Bool) (l : List α) :
    (l.filter p).length + (l.filter (fun a => !p a)).length = l.length := by
  induction l with
  | nil => rfl
  | cons a rest ih =>
    simp only [List.filter_cons]
    by_cases h : p a <;> simp [h] <;> omega

theorem calculate_match_length (rec user : List String) :
    (calculate_match rec user).matched.length + (calculate_match rec user).missing.length
      = rec.length := by
  rw [calculate_match_matched, calculate_match_missing]
  have h := filter_length_partition (fun i => decide (i ∈ user)) (rec.map lowerStr)
  simp only [Bool.not_eq_true', decide_eq_false_iff_not] at h
  calc ((rec.map lowerStr).filter (fun i => decide (i ∈ user))).length
        + ((rec.map lowerStr).filter (fun i => decide (i ∉ user))).length
      = (rec.map lowerStr).length := by
        rw [← h]
        congr 1
        simp
    _ = rec.length := List.length_map _ _

theorem calculate_match_percentage (rec user : List String) :
    (calculate_match rec user).percentage10
      = if 0 < rec.length
        then roundHalfEvenDiv (1000 * (calculate_match rec user).matched.length) rec.length
        else 0 := by
  conv_lhs => unfold calculate_match
  simp only [classify_eq_filter, calculate_match_matched, List.length_map]

theorem roundHalfEvenDiv_le (num den k : ℕ) (hden : 0 < den) (h : num ≤ k * den) :
    roundHalfEvenDiv num den ≤ k := by
  have hmod : num % den < den := Nat.mod_lt _ hden
  have hdm : den * (num / den) + num % den = num := Nat.div_add_mod num den
  have hd : num / den ≤ k :=
    Nat.le_of_mul_le_mul_right (le_trans (Nat.div_mul_le_self num den) h) hden
  simp only [roundHalfEvenDiv]
  by_cases h1 : 2 * (num % den) < den
  · simp [h1, hd]
  · have hr : 1 ≤ num % den := by omega
    have hak : num / den < k := by
      by_contra hge
      push_neg at hge
      have h5 : den * k ≤ den * (num / den) := Nat.mul_le_mul_left den hge
      have h6 : den * k = k * den := Nat.mul_comm den k
      omega
    by_cases h2 : den < 2 * (num % den)
    · simp only [h1, if_false, h2, if_true]
      omega
    · simp only [h1, if_false, h2]
      split <;> omega

theorem roundHalfEvenDiv_pos (num den : ℕ) (hden : 0 < den) (h : den < 2 * num) :
    0 < roundHalfEvenDiv num den := by
  have hmod : num % den < den := Nat.mod_lt _ hden
  have hdm : den * (num / den) + num % den = num := Nat.div_add_mod num den
  simp only [roundHalfEvenDiv]
  by_cases h1 : 2 * (num % den) < den
  · simp only [h1, if_true]
    have hge : den ≤ num := by
      by_contra hlt
      push_neg at hlt
      have hmd : num % den = num := Nat.mod_eq_of_lt hlt
      omega
    exact Nat.div_pos hge hden
  · simp only [h1, if_false]
    by_cases h2 : den < 2 * (num % den)
    · simp [h2]
    · simp only [h2, if_false]
      have hd1 : 0 < num / den := by
        by_contra hz
        push_neg at hz
        have hz' : num / den = 0 := Nat.le_zero.mp hz
        rw [hz', Nat.mul_zero, Nat.zero_add] at hdm
        omega
      split <;> omega

theorem roundHalfEvenDiv_full (t : ℕ) (ht : 0 < t) : roundHalfEvenDiv (1000 * t) t = 1000 := by
  have hdiv : 1000 * t / t = 1000 := Nat.mul_div_cancel 1000 ht
  have hmod : 1000 * t % t = 0 := Nat.mul_mod_left 1000 t
  simp [roundHalfEvenDiv, hdiv, hmod, ht]

theorem roundHalfEvenDiv_zero (den : ℕ) (hden : 0 < den) : roundHalfEvenDiv 0 den = 0 := by
  simp [roundHalfEvenDiv, Nat.zero_div, Nat.zero_mod, hden]

theorem matched_length_le (rec user : List String) :
    (calculate_match rec user).matched.length ≤ rec.length := by
  rw [calculate_match_matched]
  calc ((rec.map lowerStr).filter (fun i => decide (i ∈ user))).length
      ≤ (rec.map lowerStr).length := List.length_filter_le _ _
    _ = rec.length := List.length_map _ _

theorem passes_filters_expand (recipe : Recipe) (f : Filters) :
    passes_filters recipe (some f) =
      (maxTimeCheck recipe.total_time f.max_time &&
       skillCheck recipe.skill_level f.skill_level &&
       dietaryCheck recipe.dietary_tags f.dietary_tags &&
       cuisineCheck recipe.cuisine f.cuisine) := by
  show (if f.isEmpty then true else _) = _
  by_cases h : f.isEmpty = true
  · rcases f with ⟨mt, sl, dt, cu⟩
    simp only [Filters.isEmpty, Bool.and_eq_true, Option.isNone_iff_eq_none] at h
    obtain ⟨⟨⟨h1, h2⟩, h3⟩, h4⟩ := h
    subst h1; subst h2; subst h3; subst h4
    simp [maxTimeCheck, skillCheck, dietaryCheck, cuisineCheck, Filters.isEmpty]
  · simp [h]

theorem classify_all_missing (user : List String) (l : List String)
    (h : ∀ i ∈ l, i ∉ user) : classify user l = ([], l) := by
  induction l with
  | nil => rfl
  | cons a rest ih =>
    have ha : a ∉ user := h a (List.mem_cons_self a rest)
    have hrest := ih (fun i hi => h i (List.mem_cons_of_mem a hi))
    simp [classify, hrest, ha]

/-- C2: `calculate_match` partitions the lowercased recipe ingredient list,
duplicates preserved: lengths of `matched` and `missing` sum to the recipe
ingredient count, and each (possibly repeated) lowercased recipe ingredient
lands in `matched` exactly when it is a member of `user_ingredients`, in
`missing` otherwise. -/
theorem C2_match_partition (rec user : List String) :
    (calculate_match rec user).matched.length + (calculate_match rec user).missing.length
        = rec.length ∧
    (calculate_match rec user).matched
        = (rec.map lowerStr).filter (fun i => decide (i ∈ user)) ∧
    (calculate_match rec user).missing
        = (rec.map lowerStr).filter (fun i => decide (i ∉ user)) :=
  ⟨calculate_match_length rec user, calculate_match_matched rec user,
    calculate_match_missing rec user⟩

/-- C10: `passes_filters` treats falsy option values (`0`, `""`, `[]`) the
same as absent options, so in particular a criteria dict holding only
`max_time = 0` passes every recipe. -/
theorem C10_falsy_options (recipe : Recipe) (f : Filters) :
    passes_filters recipe (some { f with max_time := some 0 })
        = passes_filters recipe (some { f with max_time := none }) ∧
    passes_filters recipe (some { f with skill_level := some "" })
        = passes_filters recipe (some { f with skill_level := none }) ∧
    passes_filters recipe (some { f with dietary_tags := some [] })
        = passes_filters recipe (some { f with dietary_tags := none }) ∧
    passes_filters recipe (some { f with cuisine := some "" })
        = passes_filters recipe (some { f with cuisine := none }) ∧
    passes_filters recipe (some { max_time := some 0 }) = true := by
  refine ⟨?_, ?_, ?_, ?_, ?_⟩ <;>
    simp [passes_filters_expand, maxTimeCheck, skillCheck, dietaryCheck, cuisineCheck]

/-- Helper: matching `egg` against a recipe of one `egg` and `n` peppers. -/
theorem calc_egg_pepper (n : ℕ) :
    calculate_match ("egg" :: List.replicate n "pepper") ["egg"]
      = { percentage10 := roundHalfEvenDiv 1000 (n + 1)
          matched := ["egg"]
          missing := List.replicate n "pepper" } := by
  have hegg : lowerStr "egg" = "egg" := by decide
  have hpep : lowerStr "pepper" = "pepper" := by decide
  have hcl : classify ["egg"] (List.replicate n "pepper") = ([], List.replicate n "pepper") := by
    refine classify_all_missing _ _ (fun i hi => ?_)
    rw [List.eq_of_mem_replicate hi]
    decide
  have hin : ("egg" : String) ∈ ["egg"] := List.mem_singleton.mpr rfl
  unfold calculate_match
  rw [List.map_cons, List.map_replicate, hegg, hpep]
  simp only [classify, hcl, if_pos hin]
  rw [List.length_cons, List.length_replicate]
  have hpos : 0 < n + 1 := Nat.succ_pos n
  rw [if_pos hpos]
  norm_num

/-- C1 (counterexample): on a 2001-ingredient recipe with exactly one
ingredient matched, the rounded percentage is `0.0` although `matched` is
non-empty and the total is non-zero, refuting the claimed iff. -/
theorem C1_counterexample :
    (calculate_match ("egg" :: List.replicate 2000 "pepper") ["egg"]).percentage10 = 0 ∧
    (calculate_match ("egg" :: List.replicate 2000 "pepper") ["egg"]).matched ≠ [] ∧
    ("egg" :: List.replicate 2000 "pepper" : List String).length ≠ 0 := by
  rw [calc_egg_pepper 2000]
  refine ⟨by decide, by decide, ?_⟩
  rw [List.length_cons, List.length_replicate]
  decide

/-- C1 (amended): the rounded percentage is always between 0 and 100, and is
0 whenever `matched` is empty or the recipe ingredient list is empty; the
converse (`percentage = 0` implies nothing matched) holds for recipes with
fewer than 2000 ingredients, but fails beyond that because a single match
among more than 2000 ingredients rounds to 0.0. -/
theorem C1_percentage_bounds (rec user : List String) :
    (calculate_match rec user).percentage10 ≤ 1000 ∧
    (((calculate_match rec user).matched = [] ∨ rec.length = 0) →
      (calculate_match rec user).percentage10 = 0) ∧
    (rec.length < 2000 → (calculate_match rec user).percentage10 = 0 →
      (calculate_match rec user).matched = []) := by
  refine ⟨?_, ?_, ?_⟩
  · rw [calculate_match_percentage]
    by_cases h : 0 < rec.length
    · rw [if_pos h]
      exact roundHalfEvenDiv_le _ _ _ h
        (by
          have := matched_length_le rec user
          calc 1000 * (calculate_match rec user).matched.length
              ≤ 1000 * rec.length := Nat.mul_le_mul_left 1000 this
            _ = 1000 * rec.length := rfl)
    · rw [if_neg h]
      exact Nat.zero_le _
  · intro hcase
    rw [calculate_match_percentage]
    by_cases h : 0 < rec.length
    · rw [if_pos h]
      rcases hcase with hm | hl
      · rw [hm]
        simpa using roundHalfEvenDiv_zero rec.length h
      · omega
    · rw [if_neg h]
  · intro hlen hp
    by_contra hne
    have hm1 : 1 ≤ (calculate_match rec user).matched.length :=
      Nat.succ_le_of_lt (List.length_pos.mpr hne)
    have hml := matched_length_le rec user
    have hrl : 0 < rec.length := by omega
    rw [calculate_match_percentage, if_pos hrl] at hp
    have : 0 < roundHalfEvenDiv (1000 * (calculate_match rec user).matched.length) rec.length := by
      apply roundHalfEvenDiv_pos _ _ hrl
      calc rec.length < 2000 := hlen
        _ ≤ 2000 * (calculate_match rec user).matched.length := by omega
        _ = 2 * (1000 * (calculate_match rec user).matched.length) := by ring
    omega

/-- C1 (witness): the amended theorem applied at a concrete input. -/
theorem C1_percentage_bounds_witness :
    (calculate_match ["salt"] ["egg"]).matched = [] :=
  (C1_percentage_bounds ["salt"] ["egg"]).2.2 (by decide) (by decide)

theorem maxTimeCheck_eq_q (tt mt : Option ℤ) (h : mt ≠ some 0) :
    maxTimeCheck tt mt = queries.maxTimeCheck tt mt := by
  cases mt with
  | none => rfl
  | some t =>
    have ht : t ≠ 0 := fun he => h (by rw [he])
    simp [maxTimeCheck, queries.maxTimeCheck, ht]

theorem skillCheck_eq_q (sl wanted : Option String) (h : wanted ≠ some "") :
    skillCheck sl wanted = queries.skillCheck sl wanted := by
  cases wanted with
  | none => rfl
  | some s =>
    have hs : s ≠ "" := fun he => h (by rw [he])
    simp [skillCheck, queries.skillCheck, hs]

theorem dietaryCheck_eq_q (dt wanted : Option (List String)) :
    dietaryCheck dt wanted = queries.dietaryCheck dt wanted := by
  cases wanted with
  | none => rfl
  | some tags =>
    cases tags with
    | nil => simp [dietaryCheck, queries.dietaryCheck]
    | cons t ts => simp [dietaryCheck, queries.dietaryCheck]

theorem cuisineCheck_eq_q (cu wanted : Option String) (h : wanted ≠ some "") :
    cuisineCheck cu wanted = queries.cuisineCheck cu wanted := by
  cases wanted with
  | none => rfl
  | some c =>
    have hc : c ≠ "" := fun he => h (by rw [he])
    simp [cuisineCheck, queries.cuisineCheck, hc]

/-- C6 (counterexample): the two filter evaluators disagree on a criteria
dict carrying the falsy value `max_time = 0`: the script version ignores it,
the query-handler version enforces it. -/
theorem C6_counterexample :
    passes_filters toast (some { max_time := some 0 }) = true ∧
    queries.passes_filters toast { max_time := some 0 } = false := by decide

/-- C6 (amended): the two filter evaluators agree on every criteria dict
whose present options are all truthy, i.e. whenever `max_time` is not
present as `0` and `skill_level`/`cuisine` are not present as the empty
string (an empty `dietary_tags` list needs no proviso: vacuous superset
check and skipped check coincide). -/
theorem C6_filters_agree (recipe : Recipe) (f : Filters)
    (hmt : f.max_time ≠ some 0) (hsl : f.skill_level ≠ some "")
    (hcu : f.cuisine ≠ some "") :
    passes_filters recipe (some f) = queries.passes_filters recipe f := by
  rw [passes_filters_expand]
  unfold queries.passes_filters
  rw [maxTimeCheck_eq_q _ _ hmt, skillCheck_eq_q _ _ hsl, dietaryCheck_eq_q,
    cuisineCheck_eq_q _ _ hcu]

/-- C6 (witness): agreement at a concrete truthy criteria dict. -/
theorem C6_filters_agree_witness :
    passes_filters toast (some { max_time := some 30 })
      = queries.passes_filters toast { max_time := some 30 } :=
  C6_filters_agree toast { max_time := some 30 } (by decide) (by decide) (by decide)

theorem seg_max_spec (recipe : Recipe) (mt : Option ℤ) :
    (∀ g ∈ (match mt with
            | some t => if t ≠ 0 then [({ max_time := some t } : Filters)] else []
            | none => ([] : List Filters)),
        passes_filters recipe (some g) = true) ↔
      maxTimeCheck recipe.total_time mt = true := by
  cases mt with
  | none => simp [maxTimeCheck]
  | some t =>
    by_cases h : t = 0
    · subst h
      simp [maxTimeCheck]
    · simp only [h, ne_eq, not_false_iff, if_true]
      constructor
      · intro hall
        have := hall _ (List.mem_singleton.mpr rfl)
        rw [passes_filters_expand] at this
        simpa [skillCheck, dietaryCheck, cuisineCheck] using this
      · intro hck g hg
        rw [List.mem_singleton] at hg
        subst hg
        rw [passes_filters_expand]
        simpa [skillCheck, dietaryCheck, cuisineCheck] using hck

theorem seg_skill_spec (recipe : Recipe) (sl : Option String) :
    (∀ g ∈ (match sl with
            | some s => if s ≠ "" then [({ skill_level := some s } : Filters)] else []
            | none => ([] : List Filters)),
        passes_filters recipe (some g) = true) ↔
      skillCheck recipe.skill_level sl = true := by
  cases sl with
  | none => simp [skillCheck]
  | some s =>
    by_cases h : s = ""
    · subst h
      simp [skillCheck]
    · simp only [h, ne_eq, not_false_iff, if_true]
      constructor
      · intro hall
        have := hall _ (List.mem_singleton.mpr rfl)
        rw [passes_filters_expand] at this
        simpa [maxTimeCheck, dietaryCheck, cuisineCheck] using this
      · intro hck g hg
        rw [List.mem_singleton] at hg
        subst hg
        rw [passes_filters_expand]
        simpa [maxTimeCheck, dietaryCheck, cuisineCheck] using hck

theorem seg_diet_spec (recipe : Recipe) (dt : Option (List String)) :
    (∀ g ∈ (match dt with
            | some tags => if tags ≠ [] then [({ dietary_tags := some tags } : Filters)] else []
            | none => ([] : List Filters)),
        passes_filters recipe (some g) = true) ↔
      dietaryCheck recipe.dietary_tags dt = true := by
  cases dt with
  | none => simp [dietaryCheck]
  | some tags =>
    by_cases h : tags = []
    · subst h
      simp [dietaryCheck]
    · simp only [h, ne_eq, not_false_iff, if_true]
      constructor
      · intro hall
        have := hall _ (List.mem_singleton.mpr rfl)
        rw [passes_filters_expand] at this
        simpa [maxTimeCheck, skillCheck, cuisineCheck] using this
      · intro hck g hg
        rw [List.mem_singleton] at hg
        subst hg
        rw [passes_filters_expand]
        simpa [maxTimeCheck, skillCheck, cuisineCheck] using hck

theorem seg_cuisine_spec (recipe : Recipe) (cu : Option String) :
    (∀ g ∈ (match cu with
            | some c => if c ≠ "" then [({ cuisine := some c } : Filters)] else []
            | none => ([] : List Filters)),
        passes_filters recipe (some g) = true) ↔
      cuisineCheck recipe.cuisine cu = true := by
  cases cu with
  | none => simp [cuisineCheck]
  | some c =>
    by_cases h : c = ""
    · subst h
      simp [cuisineCheck]
    · simp only [h, ne_eq, not_false_iff, if_true]
      constructor
      · intro hall
        have := hall _ (List.mem_singleton.mpr rfl)
        rw [passes_filters_expand] at this
        simpa [maxTimeCheck, skillCheck, dietaryCheck] using this
      · intro hck g hg
        rw [List.mem_singleton] at hg
        subst hg
        rw [passes_filters_expand]
        simpa [maxTimeCheck, skillCheck, dietaryCheck] using hck

/-- C7: with at least two active options, `passes_filters` on the combined
criteria dict equals the conjunction of `passes_filters` on each active
option taken alone (AND-composition of filters). -/
theorem C7_and_composition (recipe : Recipe) (f : Filters) (_hc : 2 ≤ f.activeCount) :
    (passes_filters recipe (some f) = true ↔
      ∀ g ∈ activeSingletons f, passes_filters recipe (some g) = true) := by
  rw [passes_filters_expand]
  unfold activeSingletons
  simp only [List.forall_mem_append]
  rw [seg_max_spec, seg_skill_spec, seg_diet_spec, seg_cuisine_spec]
  simp [Bool.and_eq_true, and_assoc]

/-- C7 (witness): AND-composition at a concrete two-option criteria dict. -/
theorem C7_and_composition_witness :
    passes_filters thaiBowl (some { max_time := some 30, cuisine := some "thai" }) = true ↔
      ∀ g ∈ activeSingletons { max_time := some 30, cuisine := some "thai" },
        passes_filters thaiBowl (some g) = true :=
  C7_and_composition thaiBowl { max_time := some 30, cuisine := some "thai" } (by decide)

theorem searchStep_eq_some (u : List String) (fs : Option Filters) (recipe : Recipe)
    (r : ScoredRecipe) :
    searchStep u fs recipe = some r ↔
      passes_filters recipe fs = true ∧
      0 < (calculate_match recipe.ingredients u).percentage10 ∧
      r = scoredOf recipe (calculate_match recipe.ingredients u) := by
  simp only [searchStep]
  by_cases h1 : passes_filters recipe fs = true
  · rw [if_pos h1]
    by_cases h2 : 0 < (calculate_match recipe.ingredients u).percentage10
    · rw [if_pos h2]
      constructor
      · intro h
        exact ⟨h1, h2, (Option.some_inj.mp h).symm⟩
      · rintro ⟨-, -, h⟩
        rw [h]
    · rw [if_neg h2]
      constructor
      · intro h
        cases h
      · rintro ⟨-, hc, -⟩
        exact absurd hc h2
  · rw [if_neg h1]
    constructor
    · intro h
      cases h
    · rintro ⟨hc, -, -⟩
      exact absurd hc h1

/-- C3: `search_recipes` returns exactly the catalog recipes that pass the
filters and have a rounded match percentage strictly above zero, and its
output is sorted non-increasing in match percentage. -/
theorem C3_search_recipes_spec (u : List String) (recipes : List Recipe) (fs : Option Filters) :
    (∀ r, r ∈ search_recipes u recipes fs ↔
      ∃ recipe ∈ recipes, passes_filters recipe fs = true ∧
        0 < (calculate_match recipe.ingredients u).percentage10 ∧
        r = scoredOf recipe (calculate_match recipe.ingredients u)) ∧
    (search_recipes u recipes fs).Pairwise
      (fun a b => b.match_percentage10 ≤ a.match_percentage10) := by
  constructor
  · intro r
    unfold search_recipes
    rw [List.mem_insertionSort, List.mem_filterMap]
    constructor
    · rintro ⟨recipe, hmem, hstep⟩
      exact ⟨recipe, hmem, (searchStep_eq_some u fs recipe r).mp hstep⟩
    · rintro ⟨recipe, hmem, hcond⟩
      exact ⟨recipe, hmem, (searchStep_eq_some u fs recipe r).mpr hcond⟩
  · exact List.sorted_insertionSort byMatchDesc _

theorem partialStep_eq_some (u : List String) (fs : Option Filters) (th : ℕ) (ex : List ℤ)
    (recipe : Recipe) (r : PartialRecipe) :
    partialStep u fs th ex recipe = some r ↔
      recipe.id ∉ ex ∧ passes_filters recipe fs = true ∧
      10 * th ≤ (calculate_match recipe.ingredients u).percentage10 ∧
      (calculate_match recipe.ingredients u).percentage10 < 1000 ∧
      r = partialOf recipe (calculate_match recipe.ingredients u) := by
  simp only [partialStep]
  by_cases h0 : recipe.id ∈ ex
  · rw [if_pos h0]
    constructor
    · intro h
      cases h
    · rintro ⟨hc, -, -, -, -⟩
      exact absurd h0 hc
  · rw [if_neg h0]
    by_cases h1 : passes_filters recipe fs = true
    · rw [if_pos h1]
      by_cases h2 : 10 * th ≤ (calculate_match recipe.ingredients u).percentage10 ∧
          (calculate_match recipe.ingredients u).percentage10 < 1000
      · rw [if_pos h2]
        constructor
        · intro h
          exact ⟨h0, h1, h2.1, h2.2, (Option.some_inj.mp h).symm⟩
        · rintro ⟨-, -, -, -, h⟩
          rw [h]
      · rw [if_neg h2]
        constructor
        · intro h
          cases h
        · rintro ⟨-, -, ha, hb, -⟩
          exact absurd ⟨ha, hb⟩ h2
    · rw [if_neg h1]
      constructor
      · intro h
        cases h
      · rintro ⟨-, hc, -, -, -⟩
        exact absurd hc h1

/-- C8: `find_partial_matches` returns exactly the catalog recipes that are
not excluded, pass the filters and have rounded percentage in
`[min_threshold, 100)`, sorted non-increasing in match percentage. -/
theorem C8_partial_matches_spec (u : List String) (recipes : List Recipe) (fs : Option Filters)
    (th : ℕ) (ex : Option (List ℤ)) :
    (∀ r, r ∈ find_partial_matches u recipes fs th ex ↔
      ∃ recipe ∈ recipes, recipe.id ∉ ex.getD [] ∧ passes_filters recipe fs = true ∧
        10 * th ≤ (calculate_match recipe.ingredients u).percentage10 ∧
        (calculate_match recipe.ingredients u).percentage10 < 1000 ∧
        r = partialOf recipe (calculate_match recipe.ingredients u)) ∧
    (find_partial_matches u recipes fs th ex).Pairwise
      (fun a b => b.match_percentage10 ≤ a.match_percentage10) := by
  constructor
  · intro r
    unfold find_partial_matches
    rw [List.mem_insertionSort, List.mem_filterMap]
    constructor
    · rintro ⟨recipe, hmem, hstep⟩
      exact ⟨recipe, hmem, (partialStep_eq_some u fs th (ex.getD []) recipe r).mp hstep⟩
    · rintro ⟨recipe, hmem, hcond⟩
      exact ⟨recipe, hmem, (partialStep_eq_some u fs th (ex.getD []) recipe r).mpr hcond⟩
  · exact List.sorted_insertionSort byPartialDesc _

theorem rawPassesFilters_toRecipe (raw : RawRecipe) (rec : Recipe)
    (h : raw.toRecipe? = some rec) (fs : Option Filters) :
    rawPassesFilters raw fs = passes_filters rec fs := by
  rcases raw with ⟨oid, oname, oings, pt, ct, tt, sv, sl, cu, dtg, eqp⟩
  rcases oid with _ | i <;> rcases oname with _ | n <;> rcases oings with _ | ings <;>
    simp only [RawRecipe.toRecipe?] at h <;> try cases h
  cases fs with
  | none => rfl
  | some f => rfl

theorem collectScored_ok (u : List String) (fs : Option Filters) :
    ∀ (l : List RawRecipe), (∀ r ∈ l, (RawRecipe.toRecipe? r).isSome) →
      collectScored u fs l
        = .ok (l.filterMap (fun r => (RawRecipe.toRecipe? r).bind (searchStep u fs))) := by
  intro l
  induction l with
  | nil => intro _; rfl
  | cons raw rest ih =>
    intro h
    have hr := h raw (List.mem_cons_self raw rest)
    rw [Option.isSome_iff_exists] at hr
    obtain ⟨rec, hrec⟩ := hr
    have htail := ih (fun r hmem => h r (List.mem_cons_of_mem raw hmem))
    rcases raw with ⟨oid, oname, oings, pt, ct, tt, sv, sl, cu, dtg, eqp⟩
    rcases oid with _ | i <;> rcases oname with _ | n <;> rcases oings with _ | ings <;>
      simp only [RawRecipe.toRecipe?] at hrec <;> try cases hrec
  
    have hpf : rawPassesFilters ⟨some i, some n, some ings, pt, ct, tt, sv, sl, cu, dtg, eqp⟩ fs
        = passes_filters ⟨i, n, ings, pt, ct, tt, sv, sl, cu, dtg, eqp⟩ fs := by
      cases fs with
      | none => rfl
      | some f => rfl
    simp only [collectScored, List.filterMap_cons, RawRecipe.toRecipe?, Option.some_bind,
      searchStep, hpf]
    by_cases h1 : passes_filters
        ⟨i, n, ings, pt, ct, tt, sv, sl, cu, dtg, eqp⟩ fs = true
    · rw [if_pos h1, if_pos h1]
      by_cases h2 : 0 < (calculate_match ings u).percentage10
      · rw [if_pos h2, if_pos h2, htail]
        rfl
      · rw [if_neg h2, if_neg h2, htail]
        rfl
    · rw [if_neg h1, if_neg h1, htail]
      rfl

/-- C9 (counterexample): a catalog entry with no `ingredients` key makes
`search_recipes` raise `KeyError` instead of defaulting the field, refuting
the claim for missing required fields. -/
theorem C9_counterexample :
    search_recipes_raw ["egg"] [mysteryRaw] none = .error "KeyError: ingredients" := rfl

/-- C9 (amended): `search_recipes` never fails on catalogs whose entries all
carry the mandatorily-indexed keys `id`, `name` and `ingredients`; any
missing optional field is defaulted and the search returns the same ranked
list as on the converted catalog. Entries missing one of the three required
keys raise `KeyError` instead (see the counterexample). -/
theorem C9_optional_fields_defaulted (u : List String) (catalog : List RawRecipe)
    (fs : Option Filters) (h : ∀ r ∈ catalog, (RawRecipe.toRecipe? r).isSome) :
    search_recipes_raw u catalog fs
      = .ok (search_recipes u (catalog.filterMap RawRecipe.toRecipe?) fs) := by
  unfold search_recipes_raw search_recipes
  rw [collectScored_ok u fs catalog h, List.filterMap_filterMap]
  rfl

/-- C9 (witness): a raw entry missing only optional keys is searched
without error. -/
theorem C9_optional_fields_defaulted_witness :
    search_recipes_raw ["bread"] [toastRaw] none
      = .ok (search_recipes ["bread"] ([toastRaw].filterMap RawRecipe.toRecipe?) none) :=
  C9_optional_fields_defaulted ["bread"] [toastRaw] none (by decide)

theorem addMissing_pos (acc : List SuggestionImpact) (i n : String) :
    0 < (addMissing acc i n).length := by
  simp only [addMissing]
  by_cases h : acc.any (fun s => decide (s.name = i)) = true
  · rcases acc with _ | ⟨a, acc⟩
    · simp at h
    · simp [h]
  · simp [h]

theorem innerFold_pos (rn : String) (missing : List String) :
    ∀ (acc : List SuggestionImpact), 0 < acc.length →
      0 < (missing.foldl (fun a i => addMissing a i rn) acc).length := by
  induction missing with
  | nil => intro acc h; simpa using h
  | cons i rest ih =>
    intro acc _
    rw [List.foldl_cons]
    exact ih (addMissing acc i rn) (addMissing_pos acc i rn)

theorem innerFold_pos_of_ne (rn : String) (missing : List String) (hne : missing ≠ [])
    (acc : List SuggestionImpact) :
    0 < (missing.foldl (fun a i => addMissing a i rn) acc).length := by
  rcases missing with _ | ⟨i, rest⟩
  · exact absurd rfl hne
  · rw [List.foldl_cons]
    exact innerFold_pos rn rest (addMissing acc i rn) (addMissing_pos acc i rn)

theorem accumulateImpact_pos (cs : List PartialRecipe) :
    ∀ (init : List SuggestionImpact), 0 < init.length →
      0 < (accumulateImpact init cs).length := by
  induction cs with
  | nil => intro init h; simpa [accumulateImpact] using h
  | cons c rest ih =>
    intro init hinit
    simp only [accumulateImpact, List.foldl_cons]
    rcases c.missing_ingredients.eq_nil_or_concat with hnil | _
    · exact ih _ (by rw [hnil]; simpa using hinit)
    · exact ih _ (innerFold_pos c.name c.missing_ingredients init hinit)

theorem accumulateImpact_nonempty (cs : List PartialRecipe) (hne : cs ≠ [])
    (hmiss : ∀ c ∈ cs, c.missing_ingredients ≠ []) :
    0 < (accumulateImpact [] cs).length := by
  rcases cs with _ | ⟨c, rest⟩
  · exact absurd rfl hne
  · simp only [accumulateImpact, List.foldl_cons]
    exact accumulateImpact_pos rest _
      (innerFold_pos_of_ne c.name c.missing_ingredients
        (hmiss c (List.mem_cons_self c rest)) [])

theorem mem_name_addMissing (acc : List SuggestionImpact) (i n : String) (y : String)
    (hy : y ∈ (addMissing acc i n).map SuggestionImpact.name) :
    y = i ∨ y ∈ acc.map SuggestionImpact.name := by
  simp only [addMissing] at hy
  by_cases h : acc.any (fun s => decide (s.name = i)) = true
  · rw [if_pos h] at hy
    rw [List.map_map, List.mem_map] at hy
    obtain ⟨x, hx, hxy⟩ := hy
    right
    rw [List.mem_map]
    refine ⟨x, hx, ?_⟩
    rw [← hxy]
    simp only [Function.comp_apply]
    by_cases hxn : x.name = i <;> simp [hxn]
  · rw [if_neg h] at hy
    rw [List.map_map, List.mem_map] at hy
    obtain ⟨x, hx, hxy⟩ := hy
    rw [List.mem_append] at hx
    rcases hx with hx | hx
    · right
      rw [List.mem_map]
      refine ⟨x, hx, ?_⟩
      rw [← hxy]
      simp only [Function.comp_apply]
      by_cases hxn : x.name = i <;> simp [hxn]
    · left
      rw [List.mem_singleton] at hx
      subst hx
      rw [← hxy]
      simp

theorem name_mem_innerFold (rn : String) (missing : List String) :
    ∀ (acc : List SuggestionImpact) (y : String),
      y ∈ ((missing.foldl (fun a i => addMissing a i rn) acc).map SuggestionImpact.name) →
      y ∈ missing ∨ y ∈ acc.map SuggestionImpact.name := by
  induction missing with
  | nil => intro acc y hy; right; simpa using hy
  | cons i rest ih =>
    intro acc y hy
    rw [List.foldl_cons] at hy
    rcases ih (addMissing acc i rn) y hy with hr | hr
    · left
      exact List.mem_cons_of_mem i hr
    · rcases mem_name_addMissing acc i rn y hr with he | he
      · left
        rw [he]
        exact List.mem_cons_self i rest
      · right
        exact he

theorem name_mem_accumulate (cs : List PartialRecipe) :
    ∀ (init : List SuggestionImpact) (s : SuggestionImpact),
      s ∈ accumulateImpact init cs →
      (∃ c ∈ cs, s.name ∈ c.missing_ingredients) ∨ s.name ∈ init.map SuggestionImpact.name := by
  induction cs with
  | nil =>
    intro init s hs
    right
    exact List.mem_map_of_mem SuggestionImpact.name (by simpa [accumulateImpact] using hs)
  | cons c rest ih =>
    intro init s hs
    simp only [accumulateImpact, List.foldl_cons] at hs
    rcases ih _ s hs with ⟨c0, hc0, hname⟩ | hname
    · exact Or.inl ⟨c0, List.mem_cons_of_mem c hc0, hname⟩
    · rcases name_mem_innerFold c.name c.missing_ingredients init s.name hname with hr | hr
      · exact Or.inl ⟨c, List.mem_cons_self c rest, hr⟩
      · exact Or.inr hr

theorem mem_fpm (u : List String) (rs : List Recipe) (fs : Option Filters) (th : ℕ)
    (ex : Option (List ℤ)) (r : PartialRecipe) :
    r ∈ find_partial_matches u rs fs th ex ↔
      ∃ recipe ∈ rs, partialStep u fs th (ex.getD []) recipe = some r := by
  unfold find_partial_matches
  rw [List.mem_insertionSort, List.mem_filterMap]

theorem fpm_missing_ne (u : List String) (rs : List Recipe) (fs : Option Filters) (th : ℕ)
    (ex : Option (List ℤ)) (hth : 0 < th) (r : PartialRecipe)
    (hr : r ∈ find_partial_matches u rs fs th ex) :
    r.missing_ingredients ≠ [] := by
  obtain ⟨recipe, hmem, hstep⟩ := (mem_fpm u rs fs th ex r).mp hr
  obtain ⟨-, -, hge, hlt, heq⟩ := (partialStep_eq_some u fs th (ex.getD []) recipe r).mp hstep
  subst heq
  intro hnil
  simp only [partialOf] at hnil hge hlt
  have hlen := calculate_match_length recipe.ingredients u
  rw [hnil] at hlen
  simp only [List.length_nil, Nat.add_zero] at hlen
  by_cases hpos : 0 < recipe.ingredients.length
  · have hp := calculate_match_percentage recipe.ingredients u
    rw [if_pos hpos, hlen, roundHalfEvenDiv_full _ hpos] at hp
    rw [hp] at hlt
    exact absurd hlt (by omega)
  · have hp := calculate_match_percentage recipe.ingredients u
    rw [if_neg hpos] at hp
    rw [hp] at hge
    omega

/-- C4: when Strategy A finds nothing at threshold 50 but at least one
recipe scores in `[25, 100)`, `generate_shopping_suggestions` with
`has_matches = true` and a positive `top_n` returns a non-empty list, and
every suggested ingredient comes from the missing ingredients of the
threshold-25 candidate set. -/
theorem C4_graduated_fallback (u : List String) (rs : List Recipe) (fs : Option Filters)
    (ex : Option (List ℤ)) (top_n : ℕ)
    (h50 : find_partial_matches u rs fs 50 ex = [])
    (h25 : find_partial_matches u rs fs 25 ex ≠ [])
    (htop : 1 ≤ top_n) :
    generate_shopping_suggestions u rs fs top_n true ex ≠ [] ∧
    ∀ s ∈ generate_shopping_suggestions u rs fs top_n true ex,
      ∃ r ∈ find_partial_matches u rs fs 25 ex, s.name ∈ r.missing_ingredients := by
  have hgetD : ∀ th : ℕ, find_partial_matches u rs fs th (some (ex.getD []))
      = find_partial_matches u rs fs th ex := by
    intro th
    cases ex <;> rfl
  have hcand : suggestionCandidates u rs fs true (ex.getD [])
      = find_partial_matches u rs fs 25 ex := by
    simp only [suggestionCandidates, if_true, hgetD, h50]
  have hgss : generate_shopping_suggestions u rs fs top_n true ex
      = (List.insertionSort byUnlockDesc
          (accumulateImpact [] (find_partial_matches u rs fs 25 ex))).take top_n := by
    simp only [generate_shopping_suggestions, hcand]
  have hApos : 0 < (accumulateImpact [] (find_partial_matches u rs fs 25 ex)).length :=
    accumulateImpact_nonempty _ h25
      (fun c hc => fpm_missing_ne u rs fs 25 ex (by norm_num) c hc)
  constructor
  · rw [hgss]
    have hlensort : (List.insertionSort byUnlockDesc
        (accumulateImpact [] (find_partial_matches u rs fs 25 ex))).length
        = (accumulateImpact [] (find_partial_matches u rs fs 25 ex)).length :=
      (List.perm_insertionSort byUnlockDesc _).length_eq
    apply List.ne_nil_of_length_pos
    rw [List.length_take, hlensort]
    omega
  · intro s hs
    rw [hgss] at hs
    have hs' := List.mem_of_mem_take hs
    rw [List.mem_insertionSort] at hs'
    rcases name_mem_accumulate _ [] s hs' with ⟨c, hc, hn⟩ | habs
    · exact ⟨c, hc, hn⟩
    · simp at habs

/-- C4 (witness): the fallback fires on a one-recipe catalog scoring 33.3
percent. -/
theorem C4_graduated_fallback_witness :
    generate_shopping_suggestions ["egg"] [soup] none 5 true none ≠ [] :=
  (C4_graduated_fallback ["egg"] [soup] none none 5 (by decide) (by decide) (by decide)).1

/-- C5 (counterexample): a recipe listing `salt` twice among its missing
ingredients yields `unlock_count = 2` and its name twice in `recipe_names`,
although only one candidate recipe misses `salt`, refuting the per-recipe
reading of the unlock count. -/
theorem C5_counterexample :
    generate_shopping_suggestions ["egg"] [soup] none 5 true none
        = [{ name := "salt", unlock_count := 2, recipe_names := ["soup", "soup"] }] ∧
    ((suggestionCandidates ["egg"] [soup] none true []).filter
        (fun c => decide ("salt" ∈ c.missing_ingredients))).length = 1 := by decide

theorem accumulate_eq_processPairs (cs : List PartialRecipe) :
    ∀ (init : List SuggestionImpact), accumulateImpact init cs = processPairs init (pairsOf cs) := by
  induction cs with
  | nil => intro init; rfl
  | cons c rest ih =>
    intro init
    simp only [accumulateImpact, List.foldl_cons, pairsOf, List.flatMap_cons, processPairs,
      List.foldl_append, List.foldl_map]
    exact ih _

theorem impactInv_nil : ImpactInv [] [] := by
  refine ⟨?_, ?_, ?_⟩ <;> simp [ImpactInv]

theorem addMissing_of_absent (acc : List SuggestionImpact) (i n : String)
    (h : ∀ s ∈ acc, s.name ≠ i) :
    addMissing acc i n = acc ++ [{ name := i, unlock_count := 1, recipe_names := [n] }] := by
  have hany : acc.any (fun s => decide (s.name = i)) = false := by
    rw [List.any_eq_false]
    intro s hs
    simpa using h s hs
  simp only [addMissing, hany, Bool.false_eq_true, if_false, List.map_append]
  congr 1
  · calc List.map (fun s =>
          if s.name = i then
            { s with unlock_count := s.unlock_count + 1, recipe_names := s.recipe_names ++ [n] }
          else s) acc
        = List.map id acc := List.map_congr_left (fun s hs => by simp [h s hs])
      _ = acc := List.map_id acc
  · simp

theorem addMissing_of_present (acc : List SuggestionImpact) (i n : String)
    (hpres : acc.any (fun s => decide (s.name = i)) = true) :
    addMissing acc i n = acc.map (fun s =>
      if s.name = i then
        { s with unlock_count := s.unlock_count + 1, recipe_names := s.recipe_names ++ [n] }
      else s) := by
  simp only [addMissing, hpres, if_true]

theorem impactInv_step (ps : List (String × String)) (acc : List SuggestionImpact) (i n : String)
    (h : ImpactInv ps acc) : ImpactInv (ps ++ [(i, n)]) (addMissing acc i n) := by
  obtain ⟨hmem, hnd, hcnt⟩ := h
  by_cases hpres : acc.any (fun s => decide (s.name = i)) = true
  · rw [addMissing_of_present acc i n hpres]
    have hnames : (acc.map (fun s =>
        if s.name = i then
          { s with unlock_count := s.unlock_count + 1, recipe_names := s.recipe_names ++ [n] }
        else s)).map SuggestionImpact.name = acc.map SuggestionImpact.name := by
      rw [List.map_map]
      exact List.map_congr_left (fun s _ => by by_cases hsn : s.name = i <;> simp [hsn])
    refine ⟨?_, ?_, ?_⟩
    · intro p hp
      rw [hnames]
      rw [List.mem_append] at hp
      rcases hp with hp | hp
      · exact hmem p hp
      · rw [List.mem_singleton] at hp
        subst hp
        rw [List.any_eq_true] at hpres
        obtain ⟨s, hs, hsi⟩ := hpres
        simp only [decide_eq_true_eq] at hsi
        rw [List.mem_map]
        exact ⟨s, hs, hsi⟩
    · rw [hnames]
      exact hnd
    · intro s' hs'
      rw [List.mem_map] at hs'
      obtain ⟨x, hx, hxe⟩ := hs'
      obtain ⟨hxc, hxr⟩ := hcnt x hx
      by_cases hxn : x.name = i
      · rw [if_pos hxn] at hxe
        subst hxe
        constructor
        · show x.unlock_count + 1 = _
          rw [List.filter_append, List.length_append, ← hxc]
          simp [hxn]
        · show x.recipe_names ++ [n] = _
          rw [List.filter_append, List.map_append, ← hxr]
          simp [hxn]
      · rw [if_neg hxn] at hxe
        subst hxe
        have hne : ¬ (i = x.name) := fun he => hxn he.symm
        constructor
        · rw [List.filter_append, List.length_append, ← hxc]
          simp [hne]
        · rw [List.filter_append, List.map_append, ← hxr]
          simp [hne]
  · have habs : ∀ s ∈ acc, s.name ≠ i := by
      rw [Bool.not_eq_true, List.any_eq_false] at hpres
      intro s hs
      simpa using hpres s hs
    rw [addMissing_of_absent acc i n habs]
    have hinot : i ∉ acc.map SuggestionImpact.name := by
      rw [List.mem_map]
      rintro ⟨s, hs, hsn⟩
      exact habs s hs hsn
    refine ⟨?_, ?_, ?_⟩
    · intro p hp
      rw [List.map_append, List.mem_append] at *
      rcases hp with hp | hp
      · exact Or.inl (hmem p hp)
      · rw [List.mem_singleton] at hp
        subst hp
        simp
    · rw [List.map_append, List.nodup_append]
      refine ⟨hnd, List.nodup_singleton i, ?_⟩
      intro y hy hy'
      simp only [List.map_cons, List.map_nil, List.mem_singleton] at hy'
      subst hy'
      exact hinot hy
    · intro s' hs'
      rw [List.mem_append] at hs'
      rcases hs' with hs' | hs'
      · obtain ⟨hxc, hxr⟩ := hcnt s' hs'
        have hne : ¬ (i = s'.name) := fun he => habs s' hs' he.symm
        constructor
        · rw [List.filter_append, List.length_append, ← hxc]
          simp [hne]
        · rw [List.filter_append, List.map_append, ← hxr]
          simp [hne]
      · rw [List.mem_singleton] at hs'
        subst hs'
        have hfil : ps.filter (fun p => decide (p.1 = i)) = [] := by
          rw [List.filter_eq_nil_iff]
          intro p hp
          simp only [decide_eq_true_eq]
          intro hpe
          exact hinot (hpe ▸ hmem p hp)
        constructor
        · show 1 = _
          rw [List.filter_append, List.length_append, hfil]
          simp
        · show [n] = _
          rw [List.filter_append, List.map_append, hfil]
          simp

theorem impactInv_processPairs (qs : List (String × String)) :
    ∀ (ps : List (String × String)) (acc : List SuggestionImpact),
      ImpactInv ps acc → ImpactInv (ps ++ qs) (processPairs acc qs) := by
  induction qs with
  | nil =>
    intro ps acc h
    simpa [processPairs] using h
  | cons q rest ih =>
    intro ps acc h
    have hstep := impactInv_step ps acc q.1 q.2 h
    have hq : (q.1, q.2) = q := rfl
    rw [hq] at hstep
    have h2 := ih (ps ++ [q]) (addMissing acc q.1 q.2) hstep
    simpa [processPairs, List.foldl_cons, List.append_assoc] using h2

theorem impactInv_accumulate (cs : List PartialRecipe) :
    ImpactInv (pairsOf cs) (accumulateImpact [] cs) := by
  rw [accumulate_eq_processPairs]
  simpa using impactInv_processPairs (pairsOf cs) [] [] impactInv_nil

theorem pairs_inner_length (l : List String) (x nm : String) :
    ((l.map (fun ing => (ing, nm))).filter (fun p => decide (p.1 = x))).length = l.count x := by
  induction l with
  | nil => rfl
  | cons a rest ih =>
    by_cases ha : a = x <;>
      simp [List.map_cons, List.filter_cons, ha, List.count_cons, ih]

theorem pairs_inner_snd (l : List String) (x nm : String) :
    ((l.map (fun ing => (ing, nm))).filter (fun p => decide (p.1 = x))).map Prod.snd
      = List.replicate (l.count x) nm := by
  induction l with
  | nil => rfl
  | cons a rest ih =>
    by_cases ha : a = x <;>
      simp [List.map_cons, List.filter_cons, ha, List.count_cons, ih, List.replicate_succ]

theorem pairs_filter_length (cs : List PartialRecipe) (x : String) :
    ((pairsOf cs).filter (fun p => decide (p.1 = x))).length
      = (cs.map (fun c => c.missing_ingredients.count x)).sum := by
  induction cs with
  | nil => rfl
  | cons c rest ih =>
    simp only [pairsOf, List.flatMap_cons, List.filter_append, List.length_append,
      List.map_cons, List.sum_cons]
    rw [← pairsOf, ih, pairs_inner_length]

theorem pairs_filter_snd (cs : List PartialRecipe) (x : String) :
    ((pairsOf cs).filter (fun p => decide (p.1 = x))).map Prod.snd
      = cs.flatMap (fun c => List.replicate (c.missing_ingredients.count x) c.name) := by
  induction cs with
  | nil => rfl
  | cons c rest ih =>
    simp only [pairsOf, List.flatMap_cons, List.filter_append, List.map_append]
    rw [← pairsOf, ih, pairs_inner_snd]

/-- C5 (amended): each returned `SuggestionImpact` counts the total number
of occurrences of its ingredient across the candidate recipes' missing
lists — a recipe listing the ingredient `k` times contributes `k`, not at
most 1 — and `recipe_names` lists each candidate recipe's name once per
such occurrence. -/
theorem C5_unlock_count_occurrences (u : List String) (rs : List Recipe) (fs : Option Filters)
    (top_n : ℕ) (hm : Bool) (ex : Option (List ℤ)) (s : SuggestionImpact)
    (hs : s ∈ generate_shopping_suggestions u rs fs top_n hm ex) :
    s.unlock_count
        = ((suggestionCandidates u rs fs hm (ex.getD [])).map
            (fun c => c.missing_ingredients.count s.name)).sum ∧
    s.recipe_names
        = (suggestionCandidates u rs fs hm (ex.getD [])).flatMap
            (fun c => List.replicate (c.missing_ingredients.count s.name) c.name) := by
  have hs' : s ∈ accumulateImpact [] (suggestionCandidates u rs fs hm (ex.getD [])) := by
    simp only [generate_shopping_suggestions] at hs
    have h1 := List.mem_of_mem_take hs
    rw [List.mem_insertionSort] at h1
    exact h1
  obtain ⟨hcnt, hrn⟩ :=
    (impactInv_accumulate (suggestionCandidates u rs fs hm (ex.getD []))).2.2 s hs'
  constructor
  · rw [hcnt, pairs_filter_length]
  · rw [hrn, pairs_filter_snd]

/-- C5 (witness): the amended count at the duplicated-salt recipe. -/
theorem C5_unlock_count_occurrences_witness :
    ({ name := "salt", unlock_count := 2, recipe_names := ["soup", "soup"] } :
        SuggestionImpact).unlock_count
      = ((suggestionCandidates ["egg"] [soup] none true
            ((none : Option (List ℤ)).getD [])).map
          (fun c => c.missing_ingredients.count
            ({ name := "salt", unlock_count := 2, recipe_names := ["soup", "soup"] } :
              SuggestionImpact).name)).sum :=
  (C5_unlock_count_occurrences ["egg"] [soup] none 5 true none
    { name := "salt", unlock_count := 2, recipe_names := ["soup", "soup"] } (by decide)).1
